import Mathlib

/-!
# Verification of the profit-curve core of the Uber rider-churn analysis

This file embeds the core functions of `Uber_Rider_Churn_cost_benefit.ipynb`
(`standard_confusion_matrix`, `profit_curve`, `find_best_threshold`, together
with the sklearn `confusion_matrix` call they rely on and the module-level
`costbenefit` constant) as executable Lean definitions, and proves the
behavioural properties stated about them.

Modelling choices:
* Python floats are modelled as rationals (`ℚ`); all the arithmetic the core
  performs on them (comparison, division by a positive count, multiplication
  by matrix cells, summation) is exact on the values that occur.
* Binary labels (values in `{0, 1}`, including numpy boolean arrays) are
  modelled as `Bool`, with `false` standing for `0` and `true` for `1`.
* A Python exception (the `ValueError` raised by unpacking a confusion matrix
  that is not 2×2, or an out-of-range index / `np.argmax` on an empty array)
  is modelled by `Option`: `none` means the call raises.
* `sorted(probabilities, reverse=True)` is modelled by `List.insertionSort`
  with the relation `(· ≥ ·)`: over a linear order any two sorted
  rearrangements of the same multiset of values are equal elementwise, so the
  modelling does not depend on which sorting algorithm Python uses.
-/

/-- A 2×2 numeric matrix `[[a, b], [c, d]]`, as used for both the
cost-benefit matrix and scaled confusion matrices. -/
structure Mat2 where
  a : ℚ
  b : ℚ
  c : ℚ
  d : ℚ
  deriving DecidableEq, Repr

/-- The module-level constant `costbenefit = np.array([[10, -10], [-5, 0]])`. -/
def costbenefit : Mat2 := ⟨10, -10, -5, 0⟩

/-- The number of index positions at which the (index-aligned) pair of an
actual label from `y_true` and a predicted label from `y_pred` equals
`(a, p)`.  This is the generic cell count behind sklearn's
`confusion_matrix`. -/
def countPair (y_true y_pred : List Bool) (a p : Bool) : Nat :=
  (y_true.zip y_pred).countP (fun q => q.1 == a && q.2 == p)

/-- The label set sklearn infers for `confusion_matrix(y_true, y_pred)`:
the sorted distinct values occurring in either argument (here a sublist of
`[false, true]`, i.e. of `[0, 1]`). -/
def sklearnLabels (y_true y_pred : List Bool) : List Bool :=
  (if false ∈ y_true ++ y_pred then [false] else []) ++
    (if true ∈ y_true ++ y_pred then [true] else [])

/-- sklearn's `confusion_matrix(y_true, y_pred)` with labels inferred from
the data: a `k × k` matrix over the `k` inferred labels, whose `(i, j)` entry
counts samples with actual label `labels[i]` and predicted label `labels[j]`.
Raises (`none`) when the two arrays differ in length. -/
def sklearn_confusion_matrix (y_true y_pred : List Bool) :
    Option (List (List Nat)) :=
  if y_true.length = y_pred.length then
    some ((sklearnLabels y_true y_pred).map (fun tl =>
      (sklearnLabels y_true y_pred).map (fun pl =>
        countPair y_true y_pred tl pl)))
  else
    none

/-- `standard_confusion_matrix(y_true, y_predict)` from the notebook:
destructures the library matrix as `[[tn, fp], [fn, tp]]` and returns
`np.array([[tp, fp], [fn, tn]])`, here as the 4-tuple `(tp, fp, fn, tn)`.
Any shape other than 2×2 makes the destructuring assignment raise
(`none`). -/
def standard_confusion_matrix (y_true y_predict : List Bool) :
    Option (Nat × Nat × Nat × Nat) :=
  match sklearn_confusion_matrix y_true y_predict with
  | some [[tn, fp], [fn, tp]] => some (tp, fp, fn, tn)
  | _ => none

/-- The predicted-label rule used inside `profit_curve`:
`y_pred = probabilities > t` (strict elementwise comparison). -/
def predictAbove (probabilities : List ℚ) (t : ℚ) : List Bool :=
  probabilities.map (fun p => decide (t < p))

/-- The predicted-label rule used for final reporting in the notebook:
`y_test_pred = probabilities >= max_threshold` (non-strict elementwise
comparison). -/
def predictAtOrAbove (probabilities : List ℚ) (t : ℚ) : List Bool :=
  probabilities.map (fun p => decide (t ≤ p))

/-- One loop iteration of `profit_curve`, with the matrix actually used in
the profit arithmetic made explicit as `cb`: build the confusion matrix at
threshold `t`, divide every cell by `num = float(cm.sum().sum())`, multiply
elementwise by `cb`, and sum the four cells
(`(cm/num*cb).flatten().sum()`). -/
def profitAtWith (cb : Mat2) (probabilities : List ℚ) (y_true : List Bool)
    (t : ℚ) : Option ℚ :=
  match standard_confusion_matrix y_true (predictAbove probabilities t) with
  | some (tp, fp, fn, tn) =>
      let num : ℚ := ((tp + fp + fn + tn : ℕ) : ℚ)
      some ((tp / num) * cb.a + (fp / num) * cb.b +
        (fn / num) * cb.c + (tn / num) * cb.d)
  | none => none

/-- The `for t in threshold` loop body of `profit_curve`, appending one
profit per threshold; the whole call raises (`none`) as soon as one
iteration does. -/
def profitList (cb : Mat2) (probabilities : List ℚ) (y_true : List Bool) :
    List ℚ → Option (List ℚ)
  | [] => some []
  | t :: ts =>
      match profitAtWith cb probabilities y_true t,
          profitList cb probabilities y_true ts with
      | some p, some ps => some (p :: ps)
      | _, _ => none

/-- `profit_curve` with the matrix used in the profit arithmetic made
explicit: sort the probabilities in descending order as the thresholds, and
compute one profit per threshold. -/
def profit_curveWith (cb : Mat2) (probabilities : List ℚ)
    (y_true : List Bool) : Option (List ℚ × List ℚ) :=
  match profitList cb probabilities y_true
      (List.insertionSort (· ≥ ·) probabilities) with
  | some profit => some (List.insertionSort (· ≥ ·) probabilities, profit)
  | none => none

/-- `profit_curve(cost_benefit_matrix, probabilities, y_true)` exactly as
written in the notebook: the body reads the module-level `costbenefit`
constant in `cm/num*costbenefit`, never its `cost_benefit_matrix`
parameter. -/
def profit_curve (cost_benefit_matrix : Mat2) (probabilities : List ℚ)
    (y_true : List Bool) : Option (List ℚ × List ℚ) :=
  profit_curveWith costbenefit probabilities y_true

/-- `np.argmax` on a 1-d array, auxiliary loop: scan the remaining list `l`
whose head sits at absolute index `i`, keeping the index `bi` and value `bv`
of the best element seen so far, updating only on a strictly larger value
(so the first occurrence of the maximum wins). -/
def np_argmax_aux : List ℚ → Nat → Nat → ℚ → Nat
  | [], _, bi, _ => bi
  | y :: ys, i, bi, bv =>
      if bv < y then np_argmax_aux ys (i + 1) i y
      else np_argmax_aux ys (i + 1) bi bv

/-- `np.argmax` on a 1-d array: index of the first occurrence of the maximum
value; raises (`none`) on an empty array. -/
def np_argmax : List ℚ → Option Nat
  | [] => none
  | x :: xs => some (np_argmax_aux xs 1 0 x)

/-- `np.max` on a 1-d array: the maximum value; raises (`none`) on an empty
array. -/
def np_max : List ℚ → Option ℚ
  | [] => none
  | x :: xs => some (xs.foldl max x)

/-- `find_best_threshold(thresholds, profits)` from the notebook:
`max_index = np.argmax(profits)`, `max_threshold = thresholds[max_index]`,
`max_profit = np.max(profits)`; raises (`none`) when `profits` is empty or
`max_index` is out of range for `thresholds`. -/
def find_best_threshold (thresholds profits : List ℚ) : Option (ℚ × ℚ) :=
  match np_argmax profits with
  | none => none
  | some max_index =>
      match thresholds[max_index]?, np_max profits with
      | some max_threshold, some max_profit => some (max_threshold, max_profit)
      | _, _ => none

/-! ## Helper lemmas about the confusion-matrix builder -/

theorem sklearnLabels_both {y_true y_pred : List Bool}
    (hf : false ∈ y_true ++ y_pred) (ht : true ∈ y_true ++ y_pred) :
    sklearnLabels y_true y_pred = [false, true] := by
  simp [sklearnLabels, hf, ht]

theorem standard_confusion_matrix_eq {y_true y_predict : List Bool}
    (hlen : y_true.length = y_predict.length)
    (hf : false ∈ y_true ++ y_predict) (ht : true ∈ y_true ++ y_predict) :
    standard_confusion_matrix y_true y_predict =
      some (countPair y_true y_predict true true,
        countPair y_true y_predict false true,
        countPair y_true y_predict true false,
        countPair y_true y_predict false false) := by
  unfold standard_confusion_matrix sklearn_confusion_matrix
  rw [if_pos hlen, sklearnLabels_both hf ht]
  simp

theorem countP_four_partition (l : List (Bool × Bool)) :
    l.countP (fun q => q.1 == true && q.2 == true) +
      l.countP (fun q => q.1 == false && q.2 == true) +
      l.countP (fun q => q.1 == true && q.2 == false) +
      l.countP (fun q => q.1 == false && q.2 == false) = l.length := by
  induction l with
  | nil => simp
  | cons q l ih =>
      obtain ⟨a, p⟩ := q
      cases a <;> cases p <;> simp [List.countP_cons] at ih ⊢ <;> omega

theorem countPair_partition {y_true y_pred : List Bool}
    (hlen : y_true.length = y_pred.length) :
    countPair y_true y_pred true true + countPair y_true y_pred false true +
      countPair y_true y_pred true false + countPair y_true y_pred false false =
      y_true.length := by
  unfold countPair
  rw [countP_four_partition, List.length_zip, hlen, Nat.min_self]

theorem standard_confusion_matrix_some {y_true y_predict : List Bool}
    {tp fp fn tn : ℕ}
    (h : standard_confusion_matrix y_true y_predict = some (tp, fp, fn, tn)) :
    y_true.length = y_predict.length ∧
      tp = countPair y_true y_predict true true ∧
      fp = countPair y_true y_predict false true ∧
      fn = countPair y_true y_predict true false ∧
      tn = countPair y_true y_predict false false := by
  unfold standard_confusion_matrix sklearn_confusion_matrix at h
  by_cases hlen : y_true.length = y_predict.length
  · rw [if_pos hlen] at h
    by_cases hf : false ∈ y_true ++ y_predict <;>
      by_cases ht : true ∈ y_true ++ y_predict <;>
        simp [sklearnLabels, hf, ht] at h
    refine ⟨hlen, ?_, ?_, ?_, ?_⟩ <;> omega
  · rw [if_neg hlen] at h
    simp at h

/-! ## Claim C3: the confusion-matrix builder's cell ordering -/

/-- C3 (amended): for every pair of equal-length binary vectors in which both
classes occur among the values of `y_true` and `y_predict` together,
`standard_confusion_matrix` returns `[[TP, FP], [FN, TN]]` where TP counts
indices with predicted=1 and actual=1, FP predicted=1 and actual=0, FN
predicted=0 and actual=1, and TN predicted=0 and actual=0. -/
theorem standard_confusion_matrix_cell_ordering (y_true y_predict : List Bool)
    (hlen : y_true.length = y_predict.length)
    (hf : false ∈ y_true ++ y_predict) (ht : true ∈ y_true ++ y_predict) :
    standard_confusion_matrix y_true y_predict =
      some (countPair y_true y_predict true true,
        countPair y_true y_predict false true,
        countPair y_true y_predict true false,
        countPair y_true y_predict false false) :=
  standard_confusion_matrix_eq hlen hf ht

/-- C3, counterexample to the unrestricted claim: on the equal-length binary
vectors `y_true = [0]`, `y_predict = [0]` the call raises (the library matrix
is 1×1), instead of returning the claimed matrix `[[0, 0], [0, 1]]`. -/
theorem standard_confusion_matrix_single_class_fails :
    standard_confusion_matrix [false] [false] = none ∧
      standard_confusion_matrix [false] [false] ≠ some (0, 0, 0, 1) := by
  constructor <;> decide

/-- C3, witness: the amended theorem applied to the concrete input
`y_true = [1, 0]`, `y_predict = [0, 0]`. -/
theorem standard_confusion_matrix_cell_ordering_witness :
    standard_confusion_matrix [true, false] [false, false] =
      some (countPair [true, false] [false, false] true true,
        countPair [true, false] [false, false] false true,
        countPair [true, false] [false, false] true false,
        countPair [true, false] [false, false] false false) :=
  standard_confusion_matrix_cell_ordering [true, false] [false, false]
    (by decide) (by decide) (by decide)

/-! ## Claim C10: when the builder is defined at all -/

/-- C10: `standard_confusion_matrix` succeeds on equal-length binary vectors
exactly when both classes occur among the values of the two vectors together;
when all true labels and all predicted labels are the single class 0 — as at
the largest swept threshold `t = max(P)`, where every prediction is negative
— the library confusion matrix is 1×1 and the destructuring
`[[tn, fp], [fn, tp]]` raises, rather than surfacing an InvalidLabel or
ShapeMismatch error. -/
theorem standard_confusion_matrix_defined_iff :
    (∀ y_true y_predict : List Bool, y_true.length = y_predict.length →
      ((standard_confusion_matrix y_true y_predict).isSome ↔
        (false ∈ y_true ++ y_predict ∧ true ∈ y_true ++ y_predict))) ∧
    predictAbove [3/10, 2/10] (3/10) = [false, false] ∧
    sklearn_confusion_matrix [false, false] [false, false] = some [[2]] ∧
    standard_confusion_matrix [false, false] [false, false] = none := by
  refine ⟨?_, by norm_num [predictAbove], by decide, by decide⟩
  intro y_true y_predict hlen
  by_cases hf : false ∈ y_true ++ y_predict <;>
    by_cases ht : true ∈ y_true ++ y_predict
  · rw [standard_confusion_matrix_eq hlen hf ht]
    simp [hf, ht]
  all_goals
    unfold standard_confusion_matrix sklearn_confusion_matrix
    rw [if_pos hlen]
    simp [sklearnLabels, hf, ht]

/-- C10, witness: the characterization applied to the concrete input
`y_true = [1]`, `y_predict = [0]` (both classes occur, so the call
succeeds). -/
theorem standard_confusion_matrix_defined_iff_witness :
    (standard_confusion_matrix [true] [false]).isSome ↔
      (false ∈ [true] ++ [false] ∧ true ∈ [true] ++ [false]) :=
  standard_confusion_matrix_defined_iff.1 [true] [false] (by decide)

/-! ## Claim C8: confusion-matrix cells sum to N -/

/-- C8: for index-aligned inputs of positive length N and any threshold `t`
swept by the profit-curve engine (i.e. `t ∈ P`), the four cells of the
confusion matrix built at `t` sum to exactly N; hence the normalization
divisor `num = float(cm.sum().sum())` used inside `profit_curve` equals N at
every threshold. -/
theorem confusion_matrix_cells_sum_to_N (P : List ℚ) (Y : List Bool) (t : ℚ)
    (hlen : Y.length = P.length) (hpos : 0 < P.length) (ht : t ∈ P)
    (tp fp fn tn : ℕ)
    (hcm : standard_confusion_matrix Y (predictAbove P t) =
      some (tp, fp, fn, tn)) :
    tp + fp + fn + tn = Y.length ∧
      ((tp + fp + fn + tn : ℕ) : ℚ) = (Y.length : ℚ) := by
  obtain ⟨hl2, h1, h2, h3, h4⟩ := standard_confusion_matrix_some hcm
  have hsum : tp + fp + fn + tn = Y.length := by
    rw [h1, h2, h3, h4]
    exact countPair_partition hl2
  exact ⟨hsum, by exact_mod_cast congrArg (Nat.cast : ℕ → ℚ) hsum⟩

/-- C8, witness: the cell-sum invariant at `P = [1/2, 3/4]`, `Y = [1, 0]`,
threshold `t = 1/2`, where the confusion matrix is `(0, 1, 1, 0)` and
`N = 2`. -/
theorem confusion_matrix_cells_sum_to_N_witness :
    (0 + 1 + 1 + 0 = [true, false].length) ∧
      (((0 + 1 + 1 + 0 : ℕ) : ℚ) = ([true, false].length : ℚ)) :=
  confusion_matrix_cells_sum_to_N [1/2, 3/4] [true, false] (1/2)
    (by decide) (by decide) (by norm_num) 0 1 1 0
    (by norm_num [standard_confusion_matrix, sklearn_confusion_matrix,
      sklearnLabels, countPair, predictAbove])

/-! ## Claims C1 and C2: the profit arithmetic reads the global constant -/

theorem profitAtWith_zero_eq {P : List ℚ} {Y : List Bool} {t q : ℚ}
    (h : profitAtWith ⟨0, 0, 0, 0⟩ P Y t = some q) : q = 0 := by
  unfold profitAtWith at h
  rcases hcm : standard_confusion_matrix Y (predictAbove P t) with _ | ⟨⟨tp, fp, fn, tn⟩⟩ <;>
    rw [hcm] at h <;> simp at h
  exact h.symm

theorem profitList_zero_eq {P : List ℚ} {Y : List Bool} :
    ∀ {ts ps : List ℚ}, profitList ⟨0, 0, 0, 0⟩ P Y ts = some ps →
      ∀ x ∈ ps, x = 0 := by
  intro ts
  induction ts with
  | nil => intro ps h x hx; simp [profitList] at h; subst h; simp at hx
  | cons t ts ih =>
      intro ps h x hx
      unfold profitList at h
      rcases hp : profitAtWith ⟨0, 0, 0, 0⟩ P Y t with _ | q <;> rw [hp] at h
      · simp at h
      · rcases hl : profitList ⟨0, 0, 0, 0⟩ P Y ts with _ | qs <;> rw [hl] at h
        · simp at h
        · simp at h
          subst h
          rcases List.mem_cons.1 hx with hx | hx
          · subst hx; exact profitAtWith_zero_eq hp
          · exact ih hl x hx

/-- C1, counterexample: calling `profit_curve` with the all-zero cost-benefit
matrix does not make the profits zero, because the body multiplies by the
module-level `costbenefit` constant: at `P = [1/2, 1/4]`, `Y = [1, 0]` the
returned profits are `[-5/2, 5]`, and the first entry is not `0.0`. -/
theorem profit_curve_zero_matrix_counterexample :
    profit_curve ⟨0, 0, 0, 0⟩ [1/2, 1/4] [true, false] =
      some ([1/2, 1/4], [-5/2, 5]) ∧ ¬ ((-5/2 : ℚ) = 0) := by
  constructor
  · norm_num [profit_curve, profit_curveWith, profitList, profitAtWith,
      standard_confusion_matrix, sklearn_confusion_matrix, sklearnLabels,
      countPair, predictAbove, List.insertionSort, List.orderedInsert,
      costbenefit]
  · norm_num

/-- C1 (amended): the profits are all exactly `0.0` when the matrix actually
used by the engine's arithmetic — the process-wide `costbenefit` constant,
not the `cost_benefit_matrix` argument — is `[[0, 0], [0, 0]]`: running the
engine body with the zero matrix in place of the global yields a profit
sequence every entry of which is `0`, for every `P` and `Y` on which it
returns. -/
theorem profit_engine_zero_matrix_all_profits_zero (P : List ℚ)
    (Y : List Bool) (thr prof : List ℚ)
    (h : profit_curveWith ⟨0, 0, 0, 0⟩ P Y = some (thr, prof)) :
    prof.all (fun x => decide (x = 0)) = true := by
  rw [List.all_eq_true]
  intro x hx
  unfold profit_curveWith at h
  rcases hl : profitList ⟨0, 0, 0, 0⟩ P Y
      (List.insertionSort (· ≥ ·) P) with _ | ps <;> rw [hl] at h
  · simp at h
  · simp at h
    rw [decide_eq_true_eq]
    exact profitList_zero_eq hl x (h.2 ▸ hx)

/-- C1, witness: the amended theorem at `P = [1/2]`, `Y = [1]`, where the
zero-matrix engine returns `([1/2], [0])`. -/
theorem profit_engine_zero_matrix_witness :
    ([(0 : ℚ)]).all (fun x => decide (x = 0)) = true :=
  profit_engine_zero_matrix_all_profits_zero [1/2] [true] [1/2] [0]
    (by norm_num [profit_curveWith, profitList, profitAtWith,
      standard_confusion_matrix, sklearn_confusion_matrix, sklearnLabels,
      countPair, predictAbove, List.insertionSort, List.orderedInsert])

/-- C2: `profit_curve` returns identical `(thresholds, profits)` sequences
for any two cost-benefit matrix arguments and fixed `P` and `Y` — the profit
computation reads the process-wide `costbenefit` constant instead of its
`cost_benefit_matrix` parameter. -/
theorem profit_curve_ignores_cost_benefit_parameter (cb1 cb2 : Mat2)
    (P : List ℚ) (Y : List Bool) :
    profit_curve cb1 P Y = profit_curve cb2 P Y ∧
      profit_curve cb1 P Y = profit_curveWith costbenefit P Y :=
  ⟨rfl, rfl⟩

/-! ## Claim C4: the worked scenario -/

/-- C4: for `Y = [1,1,0,0]`, `P = [0.9, 0.6, 0.4, 0.1]` and the cost-benefit
matrix `[[10,-10],[-5,0]]` (which coincides with the global `costbenefit`):
at threshold `0.4` the predictions are `[1,1,0,0]`, the confusion matrix is
`(TP, FP, FN, TN) = (2, 0, 0, 2)`, and the profit is exactly `5.0`; the full
curve is `thresholds = [0.9, 0.6, 0.4, 0.1]`,
`profits = [-2.5, 1.25, 5.0, 2.5]`, and `find_best_threshold` on it returns
threshold `0.4` with maximum profit `5.0`. -/
theorem profit_curve_scenario :
    predictAbove [9/10, 6/10, 4/10, 1/10] (4/10) = [true, true, false, false] ∧
    standard_confusion_matrix [true, true, false, false]
      (predictAbove [9/10, 6/10, 4/10, 1/10] (4/10)) = some (2, 0, 0, 2) ∧
    profitAtWith costbenefit [9/10, 6/10, 4/10, 1/10]
      [true, true, false, false] (4/10) = some 5 ∧
    profit_curve ⟨10, -10, -5, 0⟩ [9/10, 6/10, 4/10, 1/10]
      [true, true, false, false] =
      some ([9/10, 6/10, 4/10, 1/10], [-5/2, 5/4, 5, 5/2]) ∧
    find_best_threshold [9/10, 6/10, 4/10, 1/10] [-5/2, 5/4, 5, 5/2] =
      some (4/10, 5) := by
  refine ⟨?_, ?_, ?_, ?_, ?_⟩ <;>
    norm_num [profit_curve, profit_curveWith, profitList, profitAtWith,
      standard_confusion_matrix, sklearn_confusion_matrix, sklearnLabels,
      countPair, predictAbove, List.insertionSort, List.orderedInsert,
      costbenefit, find_best_threshold, np_argmax, np_argmax_aux, np_max,
      max_def]

/-! ## Claim C7: behaviour on empty input -/

/-- C7, counterexample: on zero-length input vectors `profit_curve` does not
fail — it returns the empty `(thresholds, profits)` pair. -/
theorem profit_curve_empty_counterexample :
    profit_curve costbenefit [] [] = some ([], []) ∧
      profit_curve costbenefit [] [] ≠ none := by
  constructor
  · rfl
  · intro h
    rw [show profit_curve costbenefit [] [] = some ([], []) from rfl] at h
    cases h

/-- C7 (amended): given zero-length probability and label vectors, the
engine sweeps no threshold at all, so it silently returns two empty
sequences rather than failing with an EmptyInputError; in particular the
division by `N` during normalization is never executed (there is no profit
entry), so no NaN/Inf can arise from it. -/
theorem profit_curve_empty_input (cb : Mat2) :
    profit_curve cb [] [] = some ([], []) :=
  rfl

/-! ## Claim C5: shape of the returned curve -/

theorem profitAtWith_isSome (cb : Mat2) {P : List ℚ} {Y : List Bool} {t : ℚ}
    (hlen : Y.length = P.length) (hY : true ∈ Y) (ht : t ∈ P) :
    ∃ q, profitAtWith cb P Y t = some q := by
  have hplen : Y.length = (predictAbove P t).length := by
    simp [predictAbove, hlen]
  have hf : false ∈ Y ++ predictAbove P t := by
    refine List.mem_append.2 (Or.inr ?_)
    exact List.mem_map.2 ⟨t, ht, by simp⟩
  have htr : true ∈ Y ++ predictAbove P t := List.mem_append.2 (Or.inl hY)
  unfold profitAtWith
  rw [standard_confusion_matrix_eq hplen hf htr]
  exact ⟨_, rfl⟩

theorem profitList_isSome (cb : Mat2) (P : List ℚ) (Y : List Bool) :
    ∀ ts : List ℚ, (∀ t ∈ ts, ∃ q, profitAtWith cb P Y t = some q) →
      ∃ ps : List ℚ, profitList cb P Y ts = some ps ∧
        ps.length = ts.length := by
  intro ts
  induction ts with
  | nil => exact fun _ => ⟨[], rfl, rfl⟩
  | cons t ts ih =>
      intro h
      obtain ⟨q, hq⟩ := h t (List.mem_cons_self t ts)
      obtain ⟨ps, hps, hlen⟩ := ih (fun u hu => h u (List.mem_cons_of_mem t hu))
      refine ⟨q :: ps, ?_, by simp [hlen]⟩
      unfold profitList
      rw [hq, hps]

/-- C5 (amended): for every input with `len(P) = len(Y) = N > 0` in which at
least one true label is positive, `profit_curve` returns two sequences with
`len(thresholds) = len(profits) = N`, `thresholds` sorted in non-increasing
order and a permutation (as a multiset) of `P`.  (Without a positive label,
the sweep reaches the largest threshold with every prediction negative and
every true label `0`, the library confusion matrix degenerates, and the call
raises — see the counterexample.) -/
theorem profit_curve_shape (cb : Mat2) (P : List ℚ) (Y : List Bool)
    (hlen : Y.length = P.length) (hpos : 0 < P.length) (hY : true ∈ Y) :
    ∃ thresholds profits,
      profit_curve cb P Y = some (thresholds, profits) ∧
        thresholds.length = P.length ∧ profits.length = P.length ∧
        List.Sorted (· ≥ ·) thresholds ∧ thresholds.Perm P := by
  have hperm : (List.insertionSort (· ≥ ·) P).Perm P :=
    List.perm_insertionSort _ P
  have hsome : ∀ t ∈ List.insertionSort (· ≥ ·) P,
      ∃ q, profitAtWith costbenefit P Y t = some q := by
    intro t htmem
    exact profitAtWith_isSome costbenefit hlen hY (hperm.mem_iff.1 htmem)
  obtain ⟨ps, hps, hpslen⟩ := profitList_isSome costbenefit P Y _ hsome
  refine ⟨List.insertionSort (· ≥ ·) P, ps, ?_, hperm.length_eq, ?_, ?_, hperm⟩
  · unfold profit_curve profit_curveWith
    rw [hps]
  · rw [hpslen]; exact hperm.length_eq
  · exact List.sorted_insertionSort _ P

/-- C5, counterexample to the unrestricted claim: at the valid input
`P = [1/2]`, `Y = [0]` (equal positive length, binary labels) the call
raises instead of returning two sequences of length 1: at the single
threshold every prediction is negative and every true label is `0`, so the
library confusion matrix is 1×1. -/
theorem profit_curve_shape_counterexample :
    profit_curve costbenefit [1/2] [false] = none := by
  norm_num [profit_curve, profit_curveWith, profitList, profitAtWith,
    standard_confusion_matrix, sklearn_confusion_matrix, sklearnLabels,
    countPair, predictAbove, List.insertionSort, List.orderedInsert]

/-- C5, witness: the amended theorem at `P = [6/10, 9/10]`,
`Y = [1, 0]`. -/
theorem profit_curve_shape_witness :
    ∃ thresholds profits,
      profit_curve costbenefit [6/10, 9/10] [true, false] =
        some (thresholds, profits) ∧
        thresholds.length = ([6/10, 9/10] : List ℚ).length ∧
        profits.length = ([6/10, 9/10] : List ℚ).length ∧
        List.Sorted (· ≥ ·) thresholds ∧
        thresholds.Perm [6/10, 9/10] :=
  profit_curve_shape costbenefit [6/10, 9/10] [true, false]
    (by decide) (by decide) (by decide)

/-! ## Claim C6: the threshold selector -/

theorem np_argmax_aux_spec :
    ∀ (l : List ℚ) (i bi : Nat) (bv : ℚ),
      (np_argmax_aux l i bi bv = bi ∧ l.foldl max bv = bv ∧
        ∀ (j : Nat) (q : ℚ), l[j]? = some q → q ≤ bv) ∨
      (∃ (j : Nat) (q : ℚ), l[j]? = some q ∧ np_argmax_aux l i bi bv = i + j ∧
        l.foldl max bv = q ∧ bv < q ∧
        (∀ (k : Nat) (u : ℚ), l[k]? = some u → u ≤ q) ∧
        (∀ (k : Nat) (u : ℚ), k < j → l[k]? = some u → u < q)) := by
  intro l
  induction l with
  | nil =>
      intro i bi bv
      exact Or.inl ⟨rfl, rfl, fun j q h => by simp at h⟩
  | cons y ys ih =>
      intro i bi bv
      by_cases hy : bv < y
      · have hfold : (y :: ys).foldl max bv = ys.foldl max y := by
          rw [List.foldl_cons, max_eq_right hy.le]
        have haux : np_argmax_aux (y :: ys) i bi bv =
            np_argmax_aux ys (i + 1) i y := by
          simp [np_argmax_aux, hy]
        right
        rcases ih (i + 1) i y with ⟨h1, h2, h3⟩ | ⟨j, q, hjq, h1, h2, h3, h4, h5⟩
        · refine ⟨0, y, List.getElem?_cons_zero, by rw [haux, h1, Nat.add_zero],
            by rw [hfold, h2], hy, ?_, ?_⟩
          · intro k u hk
            cases k with
            | zero =>
                simp only [List.getElem?_cons_zero, Option.some_inj] at hk
                exact ge_of_eq hk
            | succ k =>
                rw [List.getElem?_cons_succ] at hk
                exact h3 k u hk
          · intro k u hk
            exact absurd hk (Nat.not_lt_zero k)
        · refine ⟨j + 1, q, by rw [List.getElem?_cons_succ]; exact hjq, ?_,
            by rw [hfold, h2], lt_trans hy h3, ?_, ?_⟩
          · rw [haux, h1]; omega
          · intro k u hk
            cases k with
            | zero =>
                simp only [List.getElem?_cons_zero, Option.some_inj] at hk
                exact le_of_lt (hk ▸ h3)
            | succ k =>
                rw [List.getElem?_cons_succ] at hk
                exact h4 k u hk
          · intro k u hklt hk
            cases k with
            | zero =>
                simp only [List.getElem?_cons_zero, Option.some_inj] at hk
                exact hk ▸ h3
            | succ k =>
                rw [List.getElem?_cons_succ] at hk
                exact h5 k u (Nat.lt_of_succ_lt_succ hklt) hk
      · have hyle : y ≤ bv := not_lt.1 hy
        have hfold : (y :: ys).foldl max bv = ys.foldl max bv := by
          rw [List.foldl_cons, max_eq_left hyle]
        have haux : np_argmax_aux (y :: ys) i bi bv =
            np_argmax_aux ys (i + 1) bi bv := by
          simp [np_argmax_aux, hy]
        rcases ih (i + 1) bi bv with ⟨h1, h2, h3⟩ | ⟨j, q, hjq, h1, h2, h3, h4, h5⟩
        · left
          refine ⟨by rw [haux, h1], by rw [hfold, h2], ?_⟩
          intro k u hk
          cases k with
          | zero =>
              simp only [List.getElem?_cons_zero, Option.some_inj] at hk
              exact le_trans (ge_of_eq hk) hyle
          | succ k =>
              rw [List.getElem?_cons_succ] at hk
              exact h3 k u hk
        · right
          refine ⟨j + 1, q, by rw [List.getElem?_cons_succ]; exact hjq, ?_,
            by rw [hfold, h2], h3, ?_, ?_⟩
          · rw [haux, h1]; omega
          · intro k u hk
            cases k with
            | zero =>
                simp only [List.getElem?_cons_zero, Option.some_inj] at hk
                exact le_trans (ge_of_eq hk) (le_of_lt (lt_of_le_of_lt hyle h3))
            | succ k =>
                rw [List.getElem?_cons_succ] at hk
                exact h4 k u hk
          · intro k u hklt hk
            cases k with
            | zero =>
                simp only [List.getElem?_cons_zero, Option.some_inj] at hk
                exact lt_of_le_of_lt (le_trans (ge_of_eq hk) hyle) h3
            | succ k =>
                rw [List.getElem?_cons_succ] at hk
                exact h5 k u (Nat.lt_of_succ_lt_succ hklt) hk

/-- C6: given equal non-zero-length `thresholds` and `profits`,
`find_best_threshold` returns the threshold at the index of maximum profit
together with the maximum profit value; when several indices achieve the
identical maximum, it returns the first such index in the given ordering
(for the engine's descending-threshold ordering, the highest threshold among
the maximizers): at the returned index `i`, every profit is `≤ profits[i]`
and every profit strictly before `i` is `< profits[i]`. -/
theorem find_best_threshold_correct (ts ps : List ℚ)
    (hlen : ts.length = ps.length) (hne : ps ≠ []) :
    ∃ (i : Nat) (t q : ℚ), ps[i]? = some q ∧ ts[i]? = some t ∧
      find_best_threshold ts ps = some (t, q) ∧
      (∀ (k : Nat) (u : ℚ), ps[k]? = some u → u ≤ q) ∧
      (∀ (k : Nat) (u : ℚ), k < i → ps[k]? = some u → u < q) := by
  obtain ⟨x, xs, rfl⟩ := List.exists_cons_of_ne_nil hne
  rcases np_argmax_aux_spec xs 1 0 x with ⟨h1, h2, h3⟩ |
    ⟨j, q, hjq, h1, h2, h3, h4, h5⟩
  · rcases ts with _ | ⟨t, ts2⟩
    · simp at hlen
    · refine ⟨0, t, x, List.getElem?_cons_zero, List.getElem?_cons_zero,
        ?_, ?_, ?_⟩
      · simp [find_best_threshold, np_argmax, np_max, h1, h2,
          List.getElem?_cons_zero]
      · intro k u hk
        cases k with
        | zero =>
            simp only [List.getElem?_cons_zero, Option.some_inj] at hk
            exact ge_of_eq hk
        | succ k =>
            rw [List.getElem?_cons_succ] at hk
            exact h3 k u hk
      · intro k u hklt hk
        exact absurd hklt (Nat.not_lt_zero k)
  · have hjlt : j < xs.length := (List.getElem?_eq_some_iff.1 hjq).1
    have hts : j + 1 < ts.length := by
      rw [hlen, List.length_cons]
      omega
    have ht : ts[j + 1]? = some ts[j + 1] := List.getElem?_eq_getElem hts
    refine ⟨j + 1, ts[j + 1], q,
      by rw [List.getElem?_cons_succ]; exact hjq, ht, ?_, ?_, ?_⟩
    · have h1q : np_argmax_aux xs 1 0 x = j + 1 := by rw [h1]; omega
      simp [find_best_threshold, np_argmax, np_max, h1q, h2, ht]
    · intro k u hk
      cases k with
      | zero =>
          simp only [List.getElem?_cons_zero, Option.some_inj] at hk
          exact le_of_lt (hk ▸ h3)
      | succ k =>
          rw [List.getElem?_cons_succ] at hk
          exact h4 k u hk
    · intro k u hklt hk
      cases k with
      | zero =>
          simp only [List.getElem?_cons_zero, Option.some_inj] at hk
          exact hk ▸ h3
      | succ k =>
          rw [List.getElem?_cons_succ] at hk
          exact h5 k u (Nat.lt_of_succ_lt_succ hklt) hk

/-- C6, witness: the selector's contract at `thresholds = [3/4, 1/2]`,
`profits = [1, 2]`, where the maximum profit `2` sits at index 1. -/
theorem find_best_threshold_correct_witness :
    ∃ (i : Nat) (t q : ℚ),
      (([1, 2] : List ℚ))[i]? = some q ∧
      (([3/4, 1/2] : List ℚ))[i]? = some t ∧
      find_best_threshold [3/4, 1/2] [1, 2] = some (t, q) ∧
      (∀ (k : Nat) (u : ℚ), (([1, 2] : List ℚ))[k]? = some u → u ≤ q) ∧
      (∀ (k : Nat) (u : ℚ), k < i →
        (([1, 2] : List ℚ))[k]? = some u → u < q) :=
  find_best_threshold_correct [3/4, 1/2] [1, 2] (by decide) (by simp)

/-! ## Claim C9: strict versus non-strict threshold comparison -/

/-- C9: the strict rule used inside the profit curve (`P[i] > t`) and the
non-strict final-reporting rule (`P[i] >= t`) classify index `i` identically
exactly when `P[i] ≠ t`, and disagree exactly when `P[i] = t`; concretely,
in the worked scenario the selected threshold `0.4` equals `P[2]`, and the
two rules produce different classification vectors there. -/
theorem threshold_rule_boundary :
    (∀ (P : List ℚ) (t : ℚ) (i : Nat) (p : ℚ), P[i]? = some p →
      (((predictAbove P t)[i]? = (predictAtOrAbove P t)[i]?) ↔ p ≠ t)) ∧
    ((4/10 : ℚ) ∈ ([9/10, 6/10, 4/10, 1/10] : List ℚ) ∧
      find_best_threshold [9/10, 6/10, 4/10, 1/10] [-5/2, 5/4, 5, 5/2] =
        some (4/10, 5) ∧
      predictAbove [9/10, 6/10, 4/10, 1/10] (4/10) ≠
        predictAtOrAbove [9/10, 6/10, 4/10, 1/10] (4/10)) := by
  constructor
  · intro P t i p hp
    simp only [predictAbove, predictAtOrAbove, List.getElem?_map, hp,
      Option.map_some', Option.some_inj, decide_eq_decide]
    rcases lt_trichotomy p t with h | h | h
    · simp [not_lt.2 h.le, not_le.2 h, h.ne]
    · subst h
      simp
    · simp [h, h.le, h.ne']
  · refine ⟨by norm_num, ?_, by norm_num [predictAbove, predictAtOrAbove]⟩
    norm_num [find_best_threshold, np_argmax, np_argmax_aux, np_max, max_def]

/-- C9, witness: the agreement criterion at `P = [1/2]`, `t = 0`, index 0:
the probability `1/2` differs from the threshold `0`, so the two rules
agree there. -/
theorem threshold_rule_boundary_witness :
    ((predictAbove [1/2] 0)[0]? = (predictAtOrAbove [1/2] 0)[0]?) ↔
      (1/2 : ℚ) ≠ 0 :=
  threshold_rule_boundary.1 [1/2] 0 0 (1/2) (by simp)
